import Mathlib

/-!
Verification of the Ormar user-database adapter
(`src/fastapi_users/db/ormar.py`, class `OrmarUserDatabase`).

The adapter is a thin CRUD layer over two relational tables:
a user table (`OrmarBaseUserModel`: id, email, hashed_password,
is_active, is_superuser) and an optional oauth-account table
(`OrmarBaseOAuthAccountModel`) linked many-to-one to the user table.

We embed the relational store as an explicit state: a list of user rows
and a list of oauth-account rows, both kept in insertion order (ormar
queries without an `order_by` return rows in primary-key/insertion
order; `first()` and `get` pick the first matching row).  Each adapter
operation becomes a pure function on this state.  `NoMatch` exceptions
caught by the adapter become `none`; an uncaught `NoMatch` (in `update`)
becomes a `none` result paired with the untouched state, since the
exception is raised by the very first storage interaction, before any
mutation.  The constructor argument `oauth_account_model` is modelled by
a boolean `cfg`: whether the external-account schema is configured.
-/

namespace OrmarDB

/-- One row of the oauth-account table, minus the foreign key
(`OrmarBaseOAuthAccountModel`): id, oauth_name, access_token,
expires_at, refresh_token (nullable), account_id, account_email. -/
structure OAuthAccount where
  acc_id : Nat
  oauth_name : String
  access_token : String
  expires_at : Int
  refresh_token : Option String
  account_id : String
  account_email : String
deriving DecidableEq, Repr

/-- The domain user object (the pydantic `UD` model): the scalar user
fields plus the optional list of linked oauth accounts. -/
structure DUser where
  id : Nat
  email : String
  hashed_password : String
  is_active : Bool
  is_superuser : Bool
  oauth_accounts : List OAuthAccount
deriving DecidableEq, Repr

/-- A stored user row (`OrmarBaseUserModel`): the five scalar columns. -/
structure UserRow where
  id : Nat
  email : String
  hashed_password : String
  is_active : Bool
  is_superuser : Bool
deriving DecidableEq, Repr

/-- A stored oauth-account row: the account columns plus the `user`
foreign key to the owning user row. -/
structure OAuthRow where
  user_id : Nat
  account : OAuthAccount
deriving DecidableEq, Repr

/-- The relational store: the user table and the oauth-account table,
rows in insertion order. -/
structure DB where
  users : List UserRow
  oauth_rows : List OAuthRow
deriving DecidableEq, Repr

/-- The rows of the oauth-account table linked to user id `uid`
(`getattr(self, field).all()` for the backward foreign-key field). -/
def linkedAccounts (db : DB) (uid : Nat) : List OAuthAccount :=
  (db.oauth_rows.filter fun r => r.user_id = uid).map OAuthRow.account

/-- `OrmarBaseUserModel.to_dict` followed by `self.user_db_model(**d)`:
build the domain object from a user row's scalar columns, together with
the backward foreign-key collection when the oauth-account schema is
configured (`cfg`); with no oauth-account model there is no backward
foreign-key field, so the accounts list stays empty. -/
def to_dict (cfg : Bool) (db : DB) (row : UserRow) : DUser :=
  { id := row.id
    email := row.email
    hashed_password := row.hashed_password
    is_active := row.is_active
    is_superuser := row.is_superuser
    oauth_accounts := if cfg then linkedAccounts db row.id else [] }

/-- `OrmarUserDatabase.get`: look the user row up by primary key;
`NoMatch` is caught and becomes `none`. -/
def get (cfg : Bool) (db : DB) (id : Nat) : Option DUser :=
  (db.users.find? fun r => r.id = id).map (to_dict cfg db)

/-- Lower-case a string character by character (the executable spelling
of `String.toLower`, mapping `Char.toLower` over the characters). -/
def strLower (s : String) : String := ⟨s.data.map Char.toLower⟩

/-- ormar's `email__iexact` filter: case-insensitive string equality. -/
def iexact (a b : String) : Bool := strLower a = strLower b

/-- `OrmarUserDatabase.get_by_email`: filter by case-insensitive email
equality, take `first()`; `None` from `first()` becomes `none`. -/
def get_by_email (cfg : Bool) (db : DB) (email : String) : Option DUser :=
  (db.users.find? fun r => iexact r.email email).map (to_dict cfg db)

/-- `OrmarUserDatabase.get_by_oauth_account`: find the first user row
owning an oauth-account row whose `oauth_name` and `account_id` both
match; `NoMatch` is caught and becomes `none`. -/
def get_by_oauth_account (cfg : Bool) (db : DB) (oauth : String)
    (account_id : String) : Option DUser :=
  (db.users.find? fun u => db.oauth_rows.any fun r =>
      r.user_id = u.id && r.account.oauth_name = oauth
        && r.account.account_id = account_id).map (to_dict cfg db)

/-- The user row built from a domain user's five scalar fields
(`self.model(**user_dict)` after popping `oauth_accounts`). -/
def rowOf (u : DUser) : UserRow :=
  { id := u.id, email := u.email, hashed_password := u.hashed_password
    is_active := u.is_active, is_superuser := u.is_superuser }

/-- The oauth-account row bulk-inserted for one accounts-list entry,
linked to the owning user (`self.oauth_account_model(user=model, **d)`). -/
def linkRow (u : DUser) (a : OAuthAccount) : OAuthRow :=
  { user_id := u.id, account := a }

/-- The scalar overwrite `update` applies to the fetched row: every
column except the primary key is replaced by the domain object's
value (`setattr(model, field, user_dict[field])` for each remaining
field). -/
def updRow (u : DUser) (r : UserRow) : UserRow :=
  if r.id = u.id then
    { id := r.id, email := u.email, hashed_password := u.hashed_password
      is_active := u.is_active, is_superuser := u.is_superuser }
  else r

/-- `OrmarUserDatabase.create`: insert a user row from the domain
object's scalar fields; then, if the accounts list is non-empty
(Python truthiness of the popped `oauth_accounts` list) and the
oauth-account schema is configured, bulk-insert one linked account row
per entry.  Returns the input domain object unchanged. -/
def create (cfg : Bool) (db : DB) (u : DUser) : DB × DUser :=
  let db1 : DB := { db with users := db.users ++ [rowOf u] }
  let db2 : DB :=
    if u.oauth_accounts ≠ [] ∧ cfg then
      { db1 with oauth_rows :=
          db1.oauth_rows ++ u.oauth_accounts.map (linkRow u) }
    else db1
  (db2, u)

/-- `OrmarUserDatabase.update`: fetch the stored row by the domain
object's id — `NoMatch` propagates to the caller, modelled as a `none`
second component with the state untouched (the failing fetch is the
first storage interaction).  Otherwise overwrite every scalar column
except the primary key and save; then, if the accounts list is
non-empty and the oauth-account schema is configured, delete all
account rows linked to this user and bulk-insert the new list.
Returns the input domain object unchanged. -/
def update (cfg : Bool) (db : DB) (u : DUser) : DB × Option DUser :=
  match db.users.find? fun r => r.id = u.id with
  | none => (db, none)
  | some _ =>
    let db1 : DB := { db with users := db.users.map (updRow u) }
    let db2 : DB :=
      if u.oauth_accounts ≠ [] ∧ cfg then
        { db1 with oauth_rows :=
            (db1.oauth_rows.filter fun r => r.user_id ≠ u.id)
              ++ u.oauth_accounts.map (linkRow u) }
      else db1
    (db2, some u)

/-- `OrmarUserDatabase.delete`:
`self.model.objects.filter(id=user.id).delete()` — remove every user
row whose id matches; a filter-delete matching nothing is a no-op, not
an error.  Dependent oauth-account rows are not touched by the adapter
(referential integrity is the storage layer's concern). -/
def delete (db : DB) (u : DUser) : DB :=
  { db with users := db.users.filter fun r => r.id ≠ u.id }

end OrmarDB

namespace OrmarDB

/-! ### Concrete data for witnesses -/

/-- A concrete oauth account used in witnesses. -/
def wAcc1 : OAuthAccount :=
  { acc_id := 10, oauth_name := "google", access_token := "tokA"
    expires_at := 100, refresh_token := none, account_id := "acc-1"
    account_email := "w@x.org" }

/-- A second concrete oauth account used in witnesses. -/
def wAcc2 : OAuthAccount :=
  { acc_id := 11, oauth_name := "github", access_token := "tokB"
    expires_at := 200, refresh_token := some "r", account_id := "acc-2"
    account_email := "w@x.org" }

/-- A third concrete oauth account used in witnesses. -/
def wAcc3 : OAuthAccount :=
  { acc_id := 12, oauth_name := "gitlab", access_token := "tokC"
    expires_at := 300, refresh_token := none, account_id := "acc-3"
    account_email := "w@x.org" }

/-- A concrete domain user with two oauth accounts. -/
def wUser : DUser :=
  { id := 1, email := "Foo@Bar.com", hashed_password := "pw1"
    is_active := true, is_superuser := false
    oauth_accounts := [wAcc1, wAcc2] }

/-- A concrete store holding `wUser` together with its two accounts. -/
def wDB : DB := (create true { users := [], oauth_rows := [] } wUser).1

/-! ### Claims -/

/-- C2: for every id, email, and (provider, account-id) pair that
matches no stored user, each of `get`, `get_by_email` and
`get_by_oauth_account` returns `none`; the not-found case is an
ordinary return value of the (total) operation, not an exception. -/
theorem C2_not_found_returns_none (cfg : Bool) (db : DB) (i : Nat)
    (e p a : String)
    (hid : ∀ r ∈ db.users, r.id ≠ i)
    (hem : ∀ r ∈ db.users, ¬ iexact r.email e)
    (hoa : ∀ u ∈ db.users, ∀ r ∈ db.oauth_rows,
        ¬(r.user_id = u.id ∧ r.account.oauth_name = p ∧
          r.account.account_id = a)) :
    get cfg db i = none ∧ get_by_email cfg db e = none ∧
      get_by_oauth_account cfg db p a = none := by
  refine ⟨?_, ?_, ?_⟩
  · unfold get
    rw [List.find?_eq_none.mpr]
    · rfl
    · intro r hr
      simpa using hid r hr
  · unfold get_by_email
    rw [List.find?_eq_none.mpr]
    · rfl
    · intro r hr
      simpa using hem r hr
  · unfold get_by_oauth_account
    rw [List.find?_eq_none.mpr]
    · rfl
    · intro r hr
      simp only [List.any_eq_true, Bool.and_eq_true, decide_eq_true_eq]
      rintro ⟨x, hx, ⟨h1, h2⟩, h3⟩
      exact hoa r hr x hx ⟨h1, h2, h3⟩

/-- Witness for C2 at a concrete store and concrete unmatched keys. -/
theorem C2_not_found_returns_none_witness :
    get true wDB 99 = none ∧ get_by_email true wDB "nobody@y.org" = none ∧
      get_by_oauth_account true wDB "twitter" "acc-9" = none :=
  C2_not_found_returns_none true wDB 99 "nobody@y.org" "twitter" "acc-9"
    (by decide) (by decide) (by decide)

/-- C4: for an id that was never created, `update` lets the storage
layer's not-found failure (`NoMatch`) propagate — the result is the
absent value — and the user table is left unchanged: no row is
inserted. -/
theorem C4_update_unknown_id_fails (cfg : Bool) (db : DB) (u : DUser)
    (h : ∀ r ∈ db.users, r.id ≠ u.id) :
    (update cfg db u).2 = none ∧ (update cfg db u).1 = db := by
  have hf : (db.users.find? fun r => r.id = u.id) = none :=
    List.find?_eq_none.mpr fun r hr => by simpa using h r hr
  unfold update
  rw [hf]
  exact ⟨rfl, rfl⟩

/-- Witness for C4: updating an id never created in the concrete store. -/
theorem C4_update_unknown_id_fails_witness :
    (update true wDB { wUser with id := 42 }).2 = none ∧
      (update true wDB { wUser with id := 42 }).1 = wDB :=
  C4_update_unknown_id_fails true wDB { wUser with id := 42 } (by decide)

/-- Any option of user rows, materialized with the oauth-account schema
unconfigured, yields only domain objects with an empty accounts list. -/
theorem all_map_to_dict_false (db : DB) (o : Option UserRow) :
    ((o.map (to_dict false db)).all fun d => d.oauth_accounts = []) = true := by
  cases o <;> simp [to_dict]

/-- C5: when the adapter is constructed without an external-account
schema (`cfg = false`), every domain object returned by `get`,
`get_by_email` or `get_by_oauth_account` carries an empty accounts
list. -/
theorem C5_unconfigured_no_accounts (db : DB) (i : Nat) (e p a : String) :
    ((get false db i).all fun d => d.oauth_accounts = []) = true ∧
    ((get_by_email false db e).all fun d => d.oauth_accounts = []) = true ∧
    ((get_by_oauth_account false db p a).all
        fun d => d.oauth_accounts = []) = true :=
  ⟨all_map_to_dict_false db _, all_map_to_dict_false db _,
    all_map_to_dict_false db _⟩

/-- C10: deleting a domain user whose id matches no stored row succeeds
(the operation is total — a filter-delete, no not-found failure) and
leaves the store unchanged. -/
theorem C10_delete_unknown_id_noop (db : DB) (u : DUser)
    (h : ∀ r ∈ db.users, r.id ≠ u.id) :
    delete db u = db := by
  unfold delete
  have hf : (db.users.filter fun r => r.id ≠ u.id) = db.users :=
    List.filter_eq_self.mpr fun r hr => by simpa using h r hr
  rw [hf]

/-- Witness for C10: deleting an id never created in the concrete store. -/
theorem C10_delete_unknown_id_noop_witness :
    delete wDB { wUser with id := 42 } = wDB :=
  C10_delete_unknown_id_noop wDB { wUser with id := 42 } (by decide)

end OrmarDB

namespace OrmarDB

/-- `create` appends exactly one user row, whatever the oauth branch
does. -/
theorem create_users (cfg : Bool) (db : DB) (u : DUser) :
    (create cfg db u).1.users = db.users ++ [rowOf u] := by
  unfold create
  split <;> rfl

/-- `find?` returns the unique element satisfying the predicate. -/
theorem find?_eq_of_mem_unique {α : Type} (p : α → Bool) (l : List α)
    (a : α) (hmem : a ∈ l) (hp : p a = true)
    (huniq : ∀ b ∈ l, p b = true → b = a) :
    l.find? p = some a := by
  induction l with
  | nil => cases hmem
  | cons x xs ih =>
    by_cases hx : p x = true
    · have hxa : x = a := huniq x (List.mem_cons_self x xs) hx
      subst hxa
      exact List.find?_cons_of_pos _ hx
    · rw [List.find?_cons_of_neg _ hx]
      rcases List.mem_cons.mp hmem with h | h
      · exact absurd (h ▸ hp) hx
      · exact ih h fun b hb hpb => huniq b (List.mem_cons_of_mem _ hb) hpb

/-- C3: for every domain user `u` created under a fresh id, `get u.id`
returns a domain object whose every scalar field (id, email,
hashed_password, is_active, is_superuser) equals `u`'s corresponding
field. -/
theorem C3_create_then_get_scalars (cfg : Bool) (db : DB) (u : DUser)
    (hfresh : ∀ r ∈ db.users, r.id ≠ u.id) :
    ∃ d, get cfg (create cfg db u).1 u.id = some d ∧ d.id = u.id ∧
      d.email = u.email ∧ d.hashed_password = u.hashed_password ∧
      d.is_active = u.is_active ∧ d.is_superuser = u.is_superuser := by
  refine ⟨to_dict cfg (create cfg db u).1 (rowOf u), ?_, rfl, rfl, rfl,
    rfl, rfl⟩
  unfold get
  rw [create_users, List.find?_append,
    List.find?_eq_none.mpr fun r hr => by simpa using hfresh r hr]
  simp [rowOf]

/-- A second concrete domain user, with no oauth accounts. -/
def wUser2 : DUser :=
  { id := 2, email := "second@y.org", hashed_password := "pw2"
    is_active := true, is_superuser := true, oauth_accounts := [] }

/-- Witness for C3: creating a fresh user in the concrete store. -/
theorem C3_create_then_get_scalars_witness :
    ∃ d, get true (create true wDB wUser2).1 wUser2.id = some d ∧
      d.id = wUser2.id ∧ d.email = wUser2.email ∧
      d.hashed_password = wUser2.hashed_password ∧
      d.is_active = wUser2.is_active ∧
      d.is_superuser = wUser2.is_superuser :=
  C3_create_then_get_scalars true wDB wUser2 (by decide)

/-- C6: `get_by_email` matches by case-insensitive equality on `email`:
for a stored row `r` whose email matches the query up to case (and is
the unique such row), any case variant of the email returns that row's
domain object; and when no row matches case-insensitively, the result
is the absent value. -/
theorem C6_get_by_email_case_insensitive (cfg : Bool) (db : DB)
    (r : UserRow) (e : String) :
    (r ∈ db.users → iexact r.email e = true →
      (∀ r' ∈ db.users, iexact r'.email e = true → r' = r) →
      get_by_email cfg db e = some (to_dict cfg db r)) ∧
    ((∀ r' ∈ db.users, ¬ iexact r'.email e = true) →
      get_by_email cfg db e = none) := by
  constructor
  · intro hmem hcase huniq
    unfold get_by_email
    rw [find?_eq_of_mem_unique _ db.users r hmem hcase huniq]
    rfl
  · intro hnone
    unfold get_by_email
    rw [List.find?_eq_none.mpr fun r' hr' => hnone r' hr']
    rfl

/-- Witness for C6: the stored email is `"Foo@Bar.com"`, the query
`"foo@bar.com"` finds it, and an unrelated email finds nothing. -/
theorem C6_get_by_email_case_insensitive_witness :
    get_by_email true wDB "foo@bar.com" =
      some (to_dict true wDB (rowOf wUser)) ∧
    get_by_email true wDB "nobody@y.org" = none :=
  ⟨(C6_get_by_email_case_insensitive true wDB (rowOf wUser)
      "foo@bar.com").1 (by decide) (by decide) (by decide),
   (C6_get_by_email_case_insensitive true wDB (rowOf wUser)
      "nobody@y.org").2 (by decide)⟩

/-- C8: `get` and `get_by_email` return the absent value for an
id/email never created; and after `delete u`, `get u.id` is absent, as
is `get_by_email` for any email whose case-insensitive matches all
belonged to `u`'s id. -/
theorem C8_get_after_delete_none (cfg : Bool) (db : DB) (u : DUser)
    (i : Nat) (e e' : String) :
    ((∀ r ∈ db.users, r.id ≠ i) → get cfg db i = none) ∧
    ((∀ r ∈ db.users, ¬ iexact r.email e = true) →
      get_by_email cfg db e = none) ∧
    get cfg (delete db u) u.id = none ∧
    ((∀ r ∈ db.users, iexact r.email e' = true → r.id = u.id) →
      get_by_email cfg (delete db u) e' = none) := by
  refine ⟨?_, ?_, ?_, ?_⟩
  · intro hi
    unfold get
    rw [List.find?_eq_none.mpr fun r hr => by simpa using hi r hr]
    rfl
  · intro he
    unfold get_by_email
    rw [List.find?_eq_none.mpr fun r hr => he r hr]
    rfl
  · unfold get delete
    rw [List.find?_eq_none.mpr]
    · rfl
    · intro r hr
      have := (List.mem_filter.mp hr).2
      simp only [decide_eq_true_eq] at this ⊢
      exact this
  · intro he'
    unfold get_by_email delete
    rw [List.find?_eq_none.mpr]
    · rfl
    · intro r hr
      obtain ⟨hrm, hrid⟩ := List.mem_filter.mp hr
      simp only [decide_eq_true_eq] at hrid
      intro hcase
      exact hrid (he' r hrm hcase)

/-- Witness for C8 at the concrete store: an unknown id, an unknown
email, and the stored user's id/email after deleting that user. -/
theorem C8_get_after_delete_none_witness :
    get true wDB 99 = none ∧
    get_by_email true wDB "nobody@y.org" = none ∧
    get true (delete wDB wUser) wUser.id = none ∧
    get_by_email true (delete wDB wUser) "foo@bar.com" = none := by
  obtain ⟨h1, h2, h3, h4⟩ :=
    C8_get_after_delete_none true wDB wUser 99 "nobody@y.org" "foo@bar.com"
  exact ⟨h1 (by decide), h2 (by decide), h3, h4 (by decide)⟩

end OrmarDB

namespace OrmarDB

/-- When the by-id fetch succeeds and the oauth branch fires,
`update` overwrites the scalar columns and fully replaces the user's
linked account rows. -/
theorem update_eq_pos (cfg : Bool) (db : DB) (u : DUser) (r₀ : UserRow)
    (hfind : (db.users.find? fun r => r.id = u.id) = some r₀)
    (hc : u.oauth_accounts ≠ [] ∧ cfg = true) :
    update cfg db u =
      ({ users := db.users.map (updRow u)
         oauth_rows := (db.oauth_rows.filter fun r => r.user_id ≠ u.id)
           ++ u.oauth_accounts.map (linkRow u) }, some u) := by
  unfold update
  rw [hfind]
  simp only [if_pos hc]

/-- When the by-id fetch succeeds but the oauth branch does not fire
(empty accounts list or unconfigured schema), `update` only overwrites
the scalar columns. -/
theorem update_eq_neg (cfg : Bool) (db : DB) (u : DUser) (r₀ : UserRow)
    (hfind : (db.users.find? fun r => r.id = u.id) = some r₀)
    (hc : ¬(u.oauth_accounts ≠ [] ∧ cfg = true)) :
    update cfg db u =
      ({ users := db.users.map (updRow u), oauth_rows := db.oauth_rows },
       some u) := by
  unfold update
  rw [hfind]
  simp only [if_neg hc]

/-- After the scalar overwrite, the by-id search finds the overwritten
row, which carries the domain object's scalar fields. -/
theorem find?_updRow (u : DUser) (l : List UserRow) (r₀ : UserRow)
    (h : (l.find? fun r => r.id = u.id) = some r₀) :
    ((l.map (updRow u)).find? fun r => r.id = u.id) =
      some { id := u.id, email := u.email
             hashed_password := u.hashed_password
             is_active := u.is_active, is_superuser := u.is_superuser } := by
  rw [List.find?_map]
  have hpf : ((fun r : UserRow => decide (r.id = u.id)) ∘ updRow u) =
      fun r : UserRow => decide (r.id = u.id) := by
    funext r
    by_cases hr : r.id = u.id <;> simp [updRow, hr]
  rw [hpf, h]
  have hid : r₀.id = u.id := by simpa using List.find?_some h
  simp [updRow, hid]

/-- C9: when the domain user's accounts list is empty or the oauth
schema is unconfigured, `update` leaves the oauth-account table
untouched while still overwriting the user's scalar columns. -/
theorem C9_update_scalar_only_frame (cfg : Bool) (db : DB) (u : DUser)
    (r₀ : UserRow)
    (hfind : (db.users.find? fun r => r.id = u.id) = some r₀)
    (hframe : u.oauth_accounts = [] ∨ cfg = false) :
    (update cfg db u).1.oauth_rows = db.oauth_rows ∧
    ∃ d, get cfg (update cfg db u).1 u.id = some d ∧ d.id = u.id ∧
      d.email = u.email ∧ d.hashed_password = u.hashed_password ∧
      d.is_active = u.is_active ∧ d.is_superuser = u.is_superuser := by
  have hc : ¬(u.oauth_accounts ≠ [] ∧ cfg = true) := by
    rcases hframe with h | h
    · exact fun hx => hx.1 h
    · exact fun hx => by rw [h] at hx; exact Bool.false_ne_true hx.2
  rw [update_eq_neg cfg db u r₀ hfind hc]
  refine ⟨rfl, ?_⟩
  refine ⟨to_dict cfg
      { users := db.users.map (updRow u), oauth_rows := db.oauth_rows }
      { id := u.id, email := u.email, hashed_password := u.hashed_password
        is_active := u.is_active, is_superuser := u.is_superuser },
    ?_, rfl, rfl, rfl, rfl, rfl⟩
  unfold get
  rw [find?_updRow u db.users r₀ hfind]
  rfl

/-- A third concrete domain user: same id as `wUser`, new scalar
fields, empty accounts list. -/
def wUser3 : DUser :=
  { id := 1, email := "upd@y.org", hashed_password := "pw3"
    is_active := false, is_superuser := true, oauth_accounts := [] }

/-- Witness for C9: updating `wUser` with an empty accounts list keeps
both stored account rows and rewrites the scalar columns. -/
theorem C9_update_scalar_only_frame_witness :
    (update true wDB wUser3).1.oauth_rows = wDB.oauth_rows ∧
    ∃ d, get true (update true wDB wUser3).1 wUser3.id = some d ∧
      d.id = wUser3.id ∧ d.email = wUser3.email ∧
      d.hashed_password = wUser3.hashed_password ∧
      d.is_active = wUser3.is_active ∧
      d.is_superuser = wUser3.is_superuser :=
  C9_update_scalar_only_frame true wDB wUser3 (rowOf wUser) (by decide)
    (Or.inl rfl)

end OrmarDB

namespace OrmarDB

/-- The bulk-inserted rows for a user's accounts list all carry that
user's id, so filtering them back by the id recovers the list. -/
theorem filter_map_linkRow (u : DUser) :
    ((u.oauth_accounts.map (linkRow u)).filter
        fun r => r.user_id = u.id).map OAuthRow.account =
      u.oauth_accounts := by
  have h1 : ((u.oauth_accounts.map (linkRow u)).filter
      fun r => r.user_id = u.id) = u.oauth_accounts.map (linkRow u) :=
    List.filter_eq_self.mpr fun r hr => by
      obtain ⟨a, _, rfl⟩ := List.mem_map.mp hr
      simp [linkRow]
  rw [h1, List.map_map]
  have h2 : (OAuthRow.account ∘ linkRow u) = fun a => a := by
    funext a
    rfl
  rw [h2, List.map_id']

/-- After delete-all-then-insert, the rows linked to the user are
exactly the inserted ones. -/
theorem filter_user_id_replace (u : DUser) (rows : List OAuthRow) :
    (((rows.filter fun r => r.user_id ≠ u.id)
        ++ u.oauth_accounts.map (linkRow u)).filter
      fun r => r.user_id = u.id).map OAuthRow.account =
      u.oauth_accounts := by
  rw [List.filter_append]
  have h0 : ((rows.filter fun r => r.user_id ≠ u.id).filter
      fun r => r.user_id = u.id) = [] := by
    rw [List.filter_filter]
    apply List.filter_eq_nil_iff.mpr
    intro a _
    by_cases h : a.user_id = u.id <;> simp [h]
  rw [h0, List.nil_append]
  exact filter_map_linkRow u

/-- C1: updating a stored user with a non-empty accounts list (schema
configured) deletes all account rows linked to that user and inserts
one row per entry of the new list; afterwards `get u.id` returns
exactly the new accounts, and any (provider, account-id) pair outside
the new list whose stored matches all belonged to this user is no
longer retrievable via `get_by_oauth_account`. -/
theorem C1_update_replaces_accounts (db : DB) (u : DUser) (r₀ : UserRow)
    (hfind : (db.users.find? fun r => r.id = u.id) = some r₀)
    (hne : u.oauth_accounts ≠ []) :
    ((get true (update true db u).1 u.id).map DUser.oauth_accounts =
      some u.oauth_accounts) ∧
    ((update true db u).1.oauth_rows =
      (db.oauth_rows.filter fun r => r.user_id ≠ u.id)
        ++ u.oauth_accounts.map (linkRow u)) ∧
    (∀ p a : String,
      (∀ acc ∈ u.oauth_accounts,
        ¬(acc.oauth_name = p ∧ acc.account_id = a)) →
      (∀ r ∈ db.oauth_rows,
        r.account.oauth_name = p ∧ r.account.account_id = a →
          r.user_id = u.id) →
      get_by_oauth_account true (update true db u).1 p a = none) := by
  rw [update_eq_pos true db u r₀ hfind ⟨hne, rfl⟩]
  refine ⟨?_, rfl, ?_⟩
  · unfold get
    rw [find?_updRow u db.users r₀ hfind]
    exact congrArg some (filter_user_id_replace u db.oauth_rows)
  · intro p a hnew hold
    unfold get_by_oauth_account
    rw [List.find?_eq_none.mpr]
    · rfl
    · intro r' _
      simp only [List.any_eq_true, Bool.and_eq_true, decide_eq_true_eq]
      rintro ⟨x, hx, ⟨_, h2⟩, h3⟩
      rcases List.mem_append.mp hx with hxo | hxn
      · obtain ⟨hxo', hxne⟩ := List.mem_filter.mp hxo
        simp only [decide_eq_true_eq] at hxne
        exact hxne (hold x hxo' ⟨h2, h3⟩)
      · obtain ⟨acc, hacc, rfl⟩ := List.mem_map.mp hxn
        exact hnew acc hacc ⟨h2, h3⟩

/-- A domain user replacing `wUser`'s two accounts with the single
account `wAcc3`. -/
def wUser4 : DUser :=
  { id := 1, email := "upd@y.org", hashed_password := "pw4"
    is_active := true, is_superuser := false, oauth_accounts := [wAcc3] }

/-- Witness for C1: replacing `wUser`'s accounts A1/A2 with A3 in the
concrete store; A1's (provider, account-id) pair is gone. -/
theorem C1_update_replaces_accounts_witness :
    ((get true (update true wDB wUser4).1 wUser4.id).map
        DUser.oauth_accounts = some wUser4.oauth_accounts) ∧
    ((update true wDB wUser4).1.oauth_rows =
      (wDB.oauth_rows.filter fun r => r.user_id ≠ wUser4.id)
        ++ wUser4.oauth_accounts.map (linkRow wUser4)) ∧
    get_by_oauth_account true (update true wDB wUser4).1 "google" "acc-1"
      = none := by
  obtain ⟨h1, h2, h3⟩ :=
    C1_update_replaces_accounts wDB wUser4 (rowOf wUser) (by decide)
      (by decide)
  exact ⟨h1, h2, h3 "google" "acc-1" (by decide) (by decide)⟩

end OrmarDB

namespace OrmarDB

/-- C7: creating a domain user with a non-empty accounts list (schema
configured, fresh id, no pre-existing row with the same provider pair
or linked to the new id) makes each account entry `A` retrievable:
`get_by_oauth_account A.oauth_name A.account_id` returns the created
user with all its scalar fields and its accounts list. -/
theorem C7_create_accounts_retrievable (db : DB) (u : DUser)
    (A : OAuthAccount) (hA : A ∈ u.oauth_accounts)
    (hfresh : ∀ r ∈ db.users, r.id ≠ u.id)
    (hnodup : ∀ r ∈ db.oauth_rows,
      ¬(r.account.oauth_name = A.oauth_name ∧
        r.account.account_id = A.account_id))
    (hnoorphan : ∀ r ∈ db.oauth_rows, r.user_id ≠ u.id) :
    ∃ d, get_by_oauth_account true (create true db u).1 A.oauth_name
        A.account_id = some d ∧
      d.id = u.id ∧ d.email = u.email ∧
      d.hashed_password = u.hashed_password ∧
      d.is_active = u.is_active ∧ d.is_superuser = u.is_superuser ∧
      d.oauth_accounts = u.oauth_accounts := by
  have hne : u.oauth_accounts ≠ [] := fun h => by
    rw [h] at hA
    cases hA
  have hcreate : create true db u =
      ({ users := db.users ++ [rowOf u]
         oauth_rows := db.oauth_rows ++ u.oauth_accounts.map (linkRow u) },
       u) := by
    unfold create
    simp only [and_true, eq_self_iff_true]
    rw [if_pos hne]
  rw [hcreate]
  refine ⟨to_dict true
      { users := db.users ++ [rowOf u]
        oauth_rows := db.oauth_rows ++ u.oauth_accounts.map (linkRow u) }
      (rowOf u), ?_, rfl, rfl, rfl, rfl, rfl, ?_⟩
  · unfold get_by_oauth_account
    rw [List.find?_append, List.find?_eq_none.mpr, Option.none_or,
      List.find?_cons_of_pos]
    · rfl
    · simp only [List.any_eq_true, Bool.and_eq_true, decide_eq_true_eq]
      exact ⟨linkRow u A,
        List.mem_append_right _ (List.mem_map_of_mem (linkRow u) hA),
        ⟨rfl, rfl⟩, rfl⟩
    · intro r hr
      simp only [List.any_eq_true, Bool.and_eq_true, decide_eq_true_eq]
      rintro ⟨x, hx, ⟨h1, h2⟩, h3⟩
      rcases List.mem_append.mp hx with hxo | hxn
      · exact hnodup x hxo ⟨h2, h3⟩
      · obtain ⟨acc, _, rfl⟩ := List.mem_map.mp hxn
        exact hfresh r hr h1.symm
  · show linkedAccounts
        { users := db.users ++ [rowOf u]
          oauth_rows := db.oauth_rows ++ u.oauth_accounts.map (linkRow u) }
        (rowOf u).id = u.oauth_accounts
    unfold linkedAccounts
    simp only [rowOf]
    rw [List.filter_append,
      List.filter_eq_nil_iff.mpr fun r hr => by
        simpa using hnoorphan r hr,
      List.nil_append]
    exact filter_map_linkRow u

/-- Witness for C7: after creating `wUser` in the empty store, its
first account's (provider, account-id) pair retrieves the user. -/
theorem C7_create_accounts_retrievable_witness :
    ∃ d, get_by_oauth_account true
        (create true { users := [], oauth_rows := [] } wUser).1
        wAcc1.oauth_name wAcc1.account_id = some d ∧
      d.id = wUser.id ∧ d.email = wUser.email ∧
      d.hashed_password = wUser.hashed_password ∧
      d.is_active = wUser.is_active ∧
      d.is_superuser = wUser.is_superuser ∧
      d.oauth_accounts = wUser.oauth_accounts :=
  C7_create_accounts_retrievable { users := [], oauth_rows := [] } wUser
    wAcc1 (by decide) (by decide) (by decide) (by decide)

end OrmarDB
